import Mathlib

/-!
Shallow embedding of the core of linux-si470x.c (an FM radio monitor with an
RDS decoder and an audio resampling bridge), together with proofs about the
program model, the tuner facade, the RDS group dispatcher, the group 4A
clock decoder and the audio resampling controller.

Modelling conventions:
* C `float` and `double` values are modelled as exact rationals.  Every
  concrete value appearing in the claims has an exact decimal representation,
  and the date computations are shown (in comments at the relevant
  definitions) to be insensitive to the difference between binary doubles and
  exact decimals on the relevant input range.
* C integer casts of nonnegative quantities truncate toward zero; the helper
  `ctrunc` below models a C cast from a floating value to an integer.
* printf output is modelled as a list of strings, one per emitted line.
* ioctl writes of the frequency register are modelled as a list of raw
  register values.
-/

namespace Si470x

/-- Truncation toward zero, the semantics of a C cast from a floating point
value to an integer type. -/
def ctrunc (q : ℚ) : Int := if q < 0 then ⌈q⌉ else ⌊q⌋

/-- Decimal rendering of a natural number zero padded to width `w`, as printf
`%0wd` renders a nonnegative int. -/
def padNum (w : Nat) (n : Nat) : String :=
  let s := toString n
  if s.length < w then String.mk (List.replicate (w - s.length) '0') ++ s else s

/-- printf `%0wd` for a possibly negative int: the sign occupies one column of
the zero padded width. -/
def padInt (w : Nat) (n : Int) : String :=
  if n < 0 then "-" ++ padNum (w - 1) n.natAbs else padNum w n.natAbs

/-- Upper case hexadecimal digit. -/
def hexDigit (n : Nat) : Char := if n < 10 then Char.ofNat (48 + n) else Char.ofNat (55 + n)

/-- Fuelled big endian hexadecimal digit list of `n`. -/
def hexCore : Nat → Nat → List Char
  | 0, _ => []
  | fuel + 1, n => if n < 16 then [hexDigit n] else hexCore fuel (n / 16) ++ [hexDigit (n % 16)]

/-- printf `%X`: upper case hexadecimal, no padding. -/
def toHexUpper (n : Nat) : String := String.mk (hexCore (n + 1) n)

/-- printf `%02X`: upper case hexadecimal zero padded to width `w`. -/
def padHex (w : Nat) (n : Nat) : String :=
  let s := toHexUpper n
  if s.length < w then String.mk (List.replicate (w - s.length) '0') ++ s else s

/-- printf `%.2f` on the exact rational value: round to the nearest hundredth
and print with two decimals.  All values printed this way in the claims have
at most two exact decimal digits, where this agrees with C's double
rendering. -/
def formatFixed2 (q : ℚ) : String :=
  let n : Int := round (q * 100)
  (if n < 0 then "-" else "") ++ toString (n.natAbs / 100) ++ "." ++ padNum 2 (n.natAbs % 100)

/-- The initial segment of a byte buffer up to (excluding) the first NUL:
the bytes a C string function sees. -/
def cString (l : List Nat) : List Nat := l.takeWhile (fun b => b != 0)

/-- C `strlen` on a byte buffer. -/
def strlenBytes (l : List Nat) : Nat := (cString l).length

/-- printf `%s` on a byte buffer: the characters up to the first NUL. -/
def bytesToString (l : List Nat) : String := String.mk ((cString l).map Char.ofNat)

/-! ## Program model

`ProgramData` mirrors the C struct of the same name; `programs` is modelled
as a list of records rather than a reallocated array, with records addressed
by their PI code `id` (the code addresses records through pointers into the
array; since ids are unique and records are never removed, addressing by id
is the same thing). -/

/-- The C struct `ProgramData`: PI code, frequency, 9 byte name buffer,
traffic program flag, traffic announcement flag, and program type code.
`tp` is declared in the C struct but never written. -/
structure ProgramData where
  id : Nat
  freq : ℚ
  name : List Nat
  tp : Nat
  ta : Nat
  type : Nat
deriving Repr, DecidableEq

/-- A `memset(pd, 0, sizeof *pd)` record with the given id, as `getProgram`
creates it. -/
def zeroProgram (pi0 : Nat) : ProgramData :=
  { id := pi0, freq := 0, name := List.replicate 9 0, tp := 0, ta := 0, type := 0 }

/-- C `getProgram`: linear search for the PI code; on a miss the table is
grown by one zero initialised record with that id.  Returns the found or
created record together with the (possibly grown) table. -/
def getProgram (pi0 : Nat) (t : List ProgramData) : ProgramData × List ProgramData :=
  match t.find? (fun pd => pd.id == pi0) with
  | some pd => (pd, t)
  | none => (zeroProgram pi0, t ++ [zeroProgram pi0])

/-- A store through a `ProgramData *` handle: rewrite the record with the
given id.  (Ids are unique in every reachable table, so this touches the one
record the C pointer designates.) -/
def updateProgram (pi0 : Nat) (f : ProgramData → ProgramData) (t : List ProgramData) :
    List ProgramData :=
  t.map fun pd => if pd.id == pi0 then f pd else pd

/-- A read through a `ProgramData *` handle. -/
def lookupProgram (pi0 : Nat) (t : List ProgramData) : Option ProgramData :=
  t.find? (fun pd => pd.id == pi0)

/-- The C `programTypes` table exactly as the initialiser produces it: the
missing comma between "Religion" and "Phone-in" concatenates the two string
literals, so the array holds 30 strings with every label after
"Social affairs" shifted by one slot. -/
def programTypes : List String :=
  ["News", "Current affairs", "Information", "Sport",
   "Education", "Drama", "Culture", "Science", "Varied", "Pop music",
   "Rock music", "Easy listening", "Light classical", "Serious classical",
   "Other music", "Weather", "Finance", "Children\x27s programmes",
   "Social affairs", "ReligionPhone-in", "Travel", "Leisure", "Jazz music",
   "Country music", "National music", "Oldies music", "Folk music",
   "Documentary", "Alarm test", "Alarm"]

/-! ## Tuner facade -/

/-- C `setTunerFrequency`: range check strictly between `minFrequency` and
`maxFrequency`; on success the device register is written with
`newFrequency * frequencyDivider` (a C float to u32 conversion, hence
truncation toward zero); on failure an error line is printed and no register
write happens.  Returns the optional register write and the printed lines. -/
def setTunerFrequency (minF maxF : ℚ) (divider : Nat) (newFrequency : ℚ) :
    Option Nat × List String :=
  if newFrequency < maxF ∧ newFrequency > minF then
    (some (ctrunc (newFrequency * divider)).toNat, [])
  else
    (none, [formatFixed2 newFrequency ++ " is not in range (" ++ formatFixed2 minF ++
            " - " ++ formatFixed2 maxF ++ ")"])

/-! ## RDS decoder state

The locals of `decodeRds` together with the process-wide tuning state and the
program table.  `lastGroupData`, `groupType` and `isStereo` are uninitialised
stack variables in the C; `initialRdsState` picks zeros for them. -/

/-- The mutable state of `decodeRds` and the globals it touches. -/
structure RdsState where
  verbose : Nat
  frequencyDivider : Nat
  minFrequency : ℚ
  maxFrequency : ℚ
  currentFrequency : ℚ
  programs : List ProgramData
  thisProgram : Option Nat
  programName : List Nat
  lastProgramName : Option (List Nat)
  stereoKnown : Bool
  isStereo : Bool
  ta : Bool
  freqCounter : Int
  radioText : List Nat
  radioTextabFlag : Bool
  groupData : List Nat
  lastGroupData : List Nat
  groupType : Nat
  blockCount : Nat
  errorCount : Nat
deriving Repr, DecidableEq

/-- A complete 3 byte RDS record as read from the device: `{ lsb, msb, block }`. -/
structure RdsRecord where
  lsb : Nat
  msb : Nat
  block : Nat
deriving Repr, DecidableEq

/-- `groupData[i]`. -/
def gByte (s : RdsState) (i : Nat) : Nat := s.groupData.getD i 0

/-- The state at the top of `decodeRds`, before any record is processed.
`lastGroupData` and `groupType` are indeterminate stack memory in the C
source; they are modelled as zeros here. -/
def initialRdsState (divider : Nat) (minF maxF curF : ℚ) : RdsState :=
  { verbose := 0, frequencyDivider := divider, minFrequency := minF,
    maxFrequency := maxF, currentFrequency := curF, programs := [],
    thisProgram := none, programName := List.replicate 9 0,
    lastProgramName := none, stereoKnown := false, isStereo := false,
    ta := false, freqCounter := 0,
    radioText := List.replicate 64 32 ++ [0], radioTextabFlag := false,
    groupData := List.replicate 8 0, lastGroupData := List.replicate 8 0,
    groupType := 0, blockCount := 0, errorCount := 0 }

/-! ## Group type dispatch -/

/-- Type 0A, basic tuning and switching: traffic announcement bit, program
service name assembly, stereo latch, alternate frequency counter. -/
def dispatch0A (s : RdsState) : RdsState × List String :=
  let TP := gByte s 2 &&& 0x04 == 0x04
  let isTrafficAnnouncement := gByte s 3 &&& 0x10 == 0x10
  let index := (gByte s 3 &&& 0x03) <<< 1
  let (ta1, out1) :=
    if TP && (isTrafficAnnouncement != s.ta) then
      (isTrafficAnnouncement,
       ["Traffic announcement " ++ if isTrafficAnnouncement then "on" else "off"])
    else (s.ta, ([] : List String))
  let pn := (s.programName.set index (gByte s 6)).set (index + 1) (gByte s 7)
  let (pn1, last1, out2) :=
    if strlenBytes pn ≠ 0 ∧ index == 6 then
      -- lastProgramName == NULL || strcmp(programName, lastProgramName) != 0
      let changed := match s.lastProgramName with
        | none => true
        | some l => cString pn != l
      if changed then (pn.set 0 0, some (cString pn), ["Program: " ++ bytesToString pn])
      else (pn.set 0 0, s.lastProgramName, ([] : List String))
    else (pn, s.lastProgramName, ([] : List String))
  let stereoBit := gByte s 3 &&& 0x04 == 0x04
  let (sk1, st1, out3) :=
    if gByte s 3 &&& 0x03 == 3 then
      let (skA, stA, outA) :=
        if !s.stereoKnown then
          (true, stereoBit, ["Program is " ++ if stereoBit then "stereo" else "mono"])
        else (s.stereoKnown, s.isStereo, ([] : List String))
      if stA != stereoBit then
        (skA, stereoBit, outA ++ ["Program is " ++ if stereoBit then "stereo" else "mono"])
      else (skA, stA, outA)
    else (s.stereoKnown, s.isStereo, ([] : List String))
  -- alternate frequency list: the decoded frequencies are computed into
  -- unused locals in the C; only the counter survives
  let fc1 : Int :=
    if 224 ≤ gByte s 4 ∧ gByte s 4 ≤ 249 then
      let c : Int := (gByte s 4 : Int) - 224
      if c ≠ 0 ∧ (1 ≤ gByte s 5 ∧ gByte s 5 ≤ 204) then c - 1 else c
    else if s.freqCounter > 0 then s.freqCounter - 2
    else s.freqCounter
  ({s with ta := ta1, programName := pn1, lastProgramName := last1,
           stereoKnown := sk1, isStereo := st1, freqCounter := fc1},
   out1 ++ out2 ++ out3)

/-- The trimming loop of type 2A: walking from the tail, NUL bytes are
skipped and trailing blanks and carriage returns are overwritten with NUL,
stopping at the first other byte.  `trimTail` operates on the reversed
buffer. -/
def trimTail : List Nat → List Nat
  | [] => []
  | b :: rest => if b == 0 || b == 32 || b == 13 then 0 :: trimTail rest else b :: rest

/-- Right trim of the radio text buffer, as the type 2A handler performs it. -/
def rtTrim (rt : List Nat) : List Nat := (trimTail rt.reverse).reverse

/-- Type 2A, radio text: A/B flip emits and clears the buffer, then four
bytes are stored at the segment given by the low nibble of `groupData[3]`. -/
def dispatch2A (s : RdsState) : RdsState × List String :=
  let index := gByte s 3 &&& 0x0F
  let newabFlag := gByte s 3 &&& 0x10 == 0x10
  let (rt1, ab1, out1) :=
    if newabFlag != s.radioTextabFlag then
      let t := rtTrim s.radioText
      (List.replicate 64 32 ++ [0], newabFlag,
       if strlenBytes t > 0 then ["Text: " ++ bytesToString t] else ([] : List String))
    else (s.radioText, s.radioTextabFlag, ([] : List String))
  let rt2 := (((rt1.set (4 * index) (gByte s 4)).set (4 * index + 1) (gByte s 5)).set
               (4 * index + 2) (gByte s 6)).set (4 * index + 3) (gByte s 7)
  ({s with radioText := rt2, radioTextabFlag := ab1}, out1)

/-! ## Group 4A: clock and date

The C computes `(int)((julianDate - 15078.2)/365.25)` and friends in double
arithmetic.  On the inputs where these claims evaluate them, the exact
rational value of each cast argument is at distance at least `1/306001` from
every integer, far above the rounding error of binary doubles on these
magnitudes, so exact rational arithmetic truncates identically. -/

/-- `year = (int)((julianDate - 15078.2)/365.25)`. -/
def mjdYear (jd : Nat) : Int := ctrunc (((jd : ℚ) - 15078.2) / 365.25)

/-- `(int)(year*365.25)`, shared by the month and day computations. -/
def mjdYearDays (jd : Nat) : Int := ctrunc ((mjdYear jd : ℚ) * 365.25)

/-- `month = (int)(((julianDate - 14956.1) - (int)(year*365.25))/30.6001)`. -/
def mjdMonth (jd : Nat) : Int :=
  ctrunc ((((jd : ℚ) - 14956.1) - (mjdYearDays jd : ℚ)) / 30.6001)

/-- `day = julianDate - 14956 - (int)(year*365.25) - (int)(month*30.6001)`. -/
def mjdDay (jd : Nat) : Int :=
  (jd : Int) - 14956 - mjdYearDays jd - ctrunc ((mjdMonth jd : ℚ) * 30.6001)

/-- The Gregorian date the 4A handler derives from a Modified Julian Date:
`K` correction, `year + K + 1900`, `month - 1 - K*12`. -/
def mjdToYMD (jd : Nat) : Int × Int × Int :=
  let K : Int := if mjdMonth jd = 14 ∨ mjdMonth jd = 15 then 1 else 0
  (mjdYear jd + K + 1900, mjdMonth jd - 1 - K * 12, mjdDay jd)

/-- `monthDays` table of the 4A handler. -/
def monthDays : List Int := [31, 28, 31, 30, 31, 30, 31, 31, 30, 31, 30, 31]

/-- Type 4A, clock and date: MJD extraction, Gregorian conversion, local
time adjustment with carries, and the formatted Date line.  The two while
loops normalising the minute are Euclidean division by 60 with the quotient
carried into the hour.  A month value outside 1..12 makes the C index
`monthDays` out of bounds; the model reads a default instead. -/
def dispatch4ALine (s : RdsState) : String :=
  let jd := ((gByte s 3 &&& 0x03) <<< 15) ||| (gByte s 4 <<< 7) ||| (gByte s 5 >>> 1)
  let ymd := mjdToYMD jd
  let year0 := ymd.1
  let month0 := ymd.2.1
  let day0 := ymd.2.2
  let utcHour : Int := (((gByte s 5 &&& 0x01) <<< 4) ||| ((gByte s 6 &&& 0xF0) >>> 4) : Nat)
  let utcMinute : Int := (((gByte s 6 &&& 0x0F) <<< 2) ||| ((gByte s 7 &&& 0xC0) >>> 6) : Nat)
  let utcOffset : Int :=
    if gByte s 7 &&& 0x20 == 0x20 then -((gByte s 7 &&& 0x1F : Nat) : Int)
    else ((gByte s 7 &&& 0x1F : Nat) : Int)
  let lm : Int := utcMinute + utcOffset * 30
  let localMinute : Int := lm.emod 60
  let localHour0 : Int := utcHour + lm.fdiv 60
  let a :=
    if localHour0 < 0 then
      let d := day0 - 1
      if d < 1 then
        let m := month0 - 1
        let b := if m < 1 then ((12 : Int), year0 - 1) else (m, year0)
        let dd : Int := monthDays.getD (b.1 - 1).toNat 0
        let dd2 : Int := if b.2.emod 4 == 0 ∧ b.1 == 2 then 29 else dd
        (b.2, b.1, dd2, localHour0 + 24)
      else (year0, month0, d, localHour0 + 24)
    else (year0, month0, day0, localHour0)
  let c :=
    if a.2.2.2 ≥ 24 then
      let d := a.2.2.1 + 1
      let maxDay : Int :=
        if a.1.emod 4 == 0 ∧ a.2.1 == 2 then 29 else monthDays.getD (a.2.1 - 1).toNat 0
      if d > maxDay then
        let m := a.2.1 + 1
        if m > 12 then (a.1 + 1, (1 : Int), d, a.2.2.2 - 24)
        else (a.1, m, d, a.2.2.2 - 24)
      else (a.1, a.2.1, d, a.2.2.2 - 24)
    else a
  "Date: " ++ padInt 4 c.1 ++ "-" ++ padInt 2 c.2.1 ++ "-" ++ padInt 2 c.2.2.1 ++ " " ++
    padInt 2 c.2.2.2 ++ ":" ++ padInt 2 localMinute ++ " (" ++
    (if utcOffset > 0 then "+" else "-") ++ padInt 2 ((utcOffset * 30).tdiv 60) ++ ":" ++
    padInt 2 ((utcOffset * 30).tmod 60) ++ ")"

/-- Type 8A, traffic message channel. -/
def dispatch8ALines (s : RdsState) : List String :=
  let tmctype := (gByte s 3 &&& 0x18) >>> 3
  let ci := gByte s 3 &&& 0x07
  let extent := (gByte s 4 &&& 0x38) >>> 3
  let event := ((gByte s 4 &&& 0x07) <<< 8) ||| gByte s 5
  let location := (gByte s 6 <<< 8) ||| gByte s 7
  if tmctype == 1 then
    let durStr := ["unknown", "15 minutes", "30 minutes", "1 hour", "2 hours",
                   "3 hour", "4 hour", "rest of the day"].getD ci ""
    ["TMC(single): evt=" ++ toHexUpper event ++ ", loc=" ++ toHexUpper location ++
     ", extent=" ++ toHexUpper extent ++ ", dur=" ++ durStr]
  else if s.verbose ≠ 0 then
    ["TMC: Type=" ++ toHexUpper tmctype ++ ", CI=" ++ toHexUpper ci ++ ", event=" ++
     toHexUpper event ++ ", loc=" ++ toHexUpper location]
  else []

/-- C `EONAF_handleFrequencyPair`: when this program's stored frequency is at
least the minimum and `f1` is within 0.04 MHz of it, the other program's
frequency becomes `f2`.  Returns the C return value and the updated other
record. -/
def EONAF_handleFrequencyPair (minF : ℚ) (this other : ProgramData) (f1 f2 : ℚ) :
    Bool × ProgramData :=
  if this.freq ≥ minF ∧ f1 ≥ this.freq - 0.04 ∧ f1 ≤ this.freq + 0.04 then
    (true, {other with freq := f2})
  else (false, other)

/-- Type 14A, enhanced other networks. -/
def dispatch14A (s : RdsState) : RdsState × List String :=
  let tpon := gByte s 3 &&& 0x10 == 0x10
  let variantType := gByte s 3 &&& 0x0F
  let info := (gByte s 4 <<< 8) ||| gByte s 5
  let pion := (gByte s 6 <<< 8) ||| gByte s 7
  let got := getProgram pion s.programs
  let other := got.1
  let t1 := got.2
  let s1 := {s with programs := t1}
  if variantType ≤ 3 then
    let setName := fun (p : ProgramData) =>
      {p with name := (p.name.set (2 * variantType) (gByte s 4)).set
                        (2 * variantType + 1) (gByte s 5)}
    ({s1 with programs := updateProgram pion setName t1}, [])
  else if variantType == 5 then
    match s1.thisProgram with
    | some tid =>
      match lookupProgram tid t1 with
      | some thisPd =>
        let f1 : ℚ := ((100 * ((gByte s 4 : Int) - 1) + 87600 : Int) : ℚ) / 1000
        let f2 : ℚ := ((100 * ((gByte s 5 : Int) - 1) + 87600 : Int) : ℚ) / 1000
        let res := EONAF_handleFrequencyPair s.minFrequency thisPd other f1 f2
        if res.1 then
          ({s1 with programs := updateProgram pion (fun _ => res.2) t1},
           if s.verbose ≠ 0 ∧ res.2.name.getD 0 0 ≠ 0 then
             [bytesToString res.2.name ++ " is on " ++ formatFixed2 res.2.freq ++ "MHz"]
           else [])
        else (s1, [])
      | none => (s1, [])
    | none => (s1, [])
  else if variantType == 0xD then
    let taon := gByte s 5 &&& 0x01
    if tpon ∧ taon ≠ 0 then
      if taon ≠ other.ta then
        let onOff := if taon ≠ 0 then "on" else "off"
        let line :=
          if other.name.getD 0 0 ≠ 0 then
            "Traffic Announcement on " ++ bytesToString other.name ++ " is " ++ onOff
          else
            "Traffic Announcement on " ++ toHexUpper pion ++ " is " ++ onOff
        ({s1 with programs := updateProgram pion (fun p => {p with ta := taon}) t1}, [line])
      else (s1, [])
    else (s1, [])
  else
    (s1, if s.verbose ≠ 0 then
      ["EON: TPON=" ++ (if tpon then "1" else "0") ++ ", v=" ++ toHexUpper variantType ++
       ", info=" ++ toHexUpper info ++ ", PION=" ++ toHexUpper pion] else [])

/-- The verbose raw group dump of the dispatcher's default branch. -/
def groupDumpLines (s : RdsState) : List String :=
  if s.verbose > 1 then
    ["Group(" ++ toHexUpper s.groupType ++ "): " ++
     padHex 2 (gByte s 0) ++ padHex 2 (gByte s 1) ++ "-" ++ padHex 2 (gByte s 2) ++
     padHex 2 (gByte s 3) ++ "-" ++ padHex 2 (gByte s 4) ++ padHex 2 (gByte s 5) ++ "-" ++
     padHex 2 (gByte s 6) ++ padHex 2 (gByte s 7)]
  else []

/-- The `switch (groupType)` of `decodeRds`.  `TYPE_0A = 0`, `TYPE_2A = 4`,
`TYPE_4A = 8`, `TYPE_8A = 16`, `TYPE_14A = 28`.  The `TYPE_14A` case has no
terminating break in the C and falls through into the default branch. -/
def dispatchGroup (s : RdsState) : RdsState × List String :=
  if s.groupType == 0 then dispatch0A s
  else if s.groupType == 4 then dispatch2A s
  else if s.groupType == 8 then (s, [dispatch4ALine s])
  else if s.groupType == 16 then (s, dispatch8ALines s)
  else if s.groupType == 28 then
    let r := dispatch14A s
    (r.1, r.2 ++ groupDumpLines r.1)
  else (s, groupDumpLines s)

/-- Processing of one complete 3 byte RDS record (the tail of the read loop
of `decodeRds`): error counting, PI handling on block 0, PTY and group type
on block 1, group accumulation, and on block 3 the duplicate check followed
by dispatch, the copy into `lastGroupData` and the clearing of the
accumulator. -/
def processRdsBlock (s0 : RdsState) (r : RdsRecord) : RdsState × List String :=
  let blockNumber := r.block &&& 0x07
  let error := r.block &&& 0x80 == 0x80
  let s := {s0 with blockCount := s0.blockCount + 1}
  if error then
    ({s with errorCount := s.errorCount + 1},
     if s.verbose ≠ 0 then
       [toString (s.errorCount + 1) ++ " errors in " ++ toString s.blockCount ++
        " blocks so far"]
     else [])
  else
    let step1 :=
      if blockNumber == 0 then
        let got := getProgram ((r.msb <<< 8) ||| r.lsb) s.programs
        let t2 := updateProgram got.1.id (fun p => {p with freq := s.currentFrequency}) got.2
        ({s with programs := t2, thisProgram := some got.1.id}, ([] : List String))
      else if blockNumber == 1 then
        let ptyCode := ((r.msb <<< 3) &&& 0x18) ||| ((r.lsb >>> 5) &&& 0x07)
        let inner :=
          match s.thisProgram with
          | some tid =>
            if ptyCode ≠ 0 then
              match lookupProgram tid s.programs with
              | some pd =>
                if pd.type ≠ ptyCode then
                  ({s with programs :=
                      updateProgram tid (fun p => {p with type := ptyCode}) s.programs},
                   ["Program type: " ++ programTypes.getD (ptyCode - 1) ""])
                else (s, ([] : List String))
              | none => (s, ([] : List String))
            else (s, ([] : List String))
          | none => (s, ([] : List String))
        ({inner.1 with groupType := r.msb >>> 3}, inner.2)
      else (s, ([] : List String))
    let s1 := step1.1
    let out1 := step1.2
    let g := (s1.groupData.set (2 * blockNumber) r.msb).set (2 * blockNumber + 1) r.lsb
    let s2 := {s1 with groupData := g}
    if blockNumber == 3 then
      if g == s2.lastGroupData then (s2, out1)
      else
        let r2 := dispatchGroup s2
        ({r2.1 with lastGroupData := g, groupData := List.replicate 8 0}, out1 ++ r2.2)
    else (s2, out1)

/-- Run a list of RDS records through `processRdsBlock`, collecting the
emitted lines. -/
def runRds (s : RdsState) : List RdsRecord → RdsState × List String
  | [] => (s, [])
  | r :: rs =>
    let a := processRdsBlock s r
    let b := runRds a.1 rs
    (b.1, a.2 ++ b.2)

/-! ## next-program and the keyboard handler -/

/-- The scan of `nextProgram` for the first table index whose frequency is
within 0.09 MHz of the current frequency. -/
def findProgramIndex (cur : ℚ) : List ProgramData → Nat → Option Nat
  | [], _ => none
  | pd :: rest, i =>
    if cur ≥ pd.freq - 0.09 ∧ cur ≤ pd.freq + 0.09 then some i
    else findProgramIndex cur rest (i + 1)

/-- The cyclic walk of `nextProgram` from `next` back to `i`, fuelled by the
table length (the walk visits every index at most once, so the fuel never
runs out when it starts at the table length plus one). -/
def nextProgramLoop (s : RdsState) (i : Nat) : Nat → Nat → RdsState × List Nat × List String
  | _, 0 => (s, [], ["No other stations known"])
  | next, fuel + 1 =>
    if next == i then (s, [], ["No other stations known"])
    else
      let pd := s.programs.getD next (zeroProgram 0)
      if pd.freq ≥ s.minFrequency then
        let out1 :=
          if pd.name.getD 0 0 ≠ 0 then
            ["Switching to " ++ bytesToString pd.name ++ " (" ++ formatFixed2 pd.freq ++ ")"]
          else []
        let w := setTunerFrequency s.minFrequency s.maxFrequency s.frequencyDivider pd.freq
        ({s with currentFrequency := pd.freq}, w.1.toList, out1 ++ w.2)
      else
        nextProgramLoop s i (if next == s.programs.length - 1 then 0 else next + 1) fuel

/-- C `nextProgram`: a no-op with at most one known program; otherwise the
first entry matching the current frequency within 0.09 MHz starts a cyclic
walk to the next entry with a frequency at least the minimum, which is tuned
to; with no matching entry nothing at all happens.  Returns the new state,
the register writes and the emitted lines. -/
def nextProgram (s : RdsState) : RdsState × List Nat × List String :=
  if s.programs.length ≤ 1 then (s, [], [])
  else
    match findProgramIndex s.currentFrequency s.programs 0 with
    | some i =>
      nextProgramLoop s i (if i == s.programs.length - 1 then 0 else i + 1)
        (s.programs.length + 1)
    | none => (s, [], [])

/-- The keyboard switch of the `decodeRds` loop: `n` advances to the next
program, `+` and `-` step the current frequency by 0.05 MHz with wraparound
at the range ends, everything else is echoed. -/
def handleKey (s : RdsState) (c : Nat) : RdsState × List Nat × List String :=
  if c == 110 then nextProgram s
  else if c == 43 then
    let f0 := s.currentFrequency + 0.05
    let f1 := if f0 > s.maxFrequency then s.minFrequency else f0
    let w := setTunerFrequency s.minFrequency s.maxFrequency s.frequencyDivider f1
    ({s with currentFrequency := f1}, w.1.toList,
     w.2 ++ ["Frequency tuned to " ++ formatFixed2 f1])
  else if c == 45 then
    let f0 := s.currentFrequency - 0.05
    let f1 := if f0 < s.minFrequency then s.maxFrequency else f0
    let w := setTunerFrequency s.minFrequency s.maxFrequency s.frequencyDivider f1
    ({s with currentFrequency := f1}, w.1.toList,
     w.2 ++ ["Frequency tuned to " ++ formatFixed2 f1])
  else (s, [], ["Keyboard: " ++ toString c ++ " (" ++ toHexUpper c ++ ")"])

/-! ## Audio resampling controller

The PI controller portion of the audio server `process` callback (the code
between the delay query and the sample rate conversion).  The double state
is modelled with exact rationals; the Hann window contents are transcendental
and are taken as an arbitrary parameter `window`.  The soundcard skip reads
and the stream rewind are modelled as fully succeeding, which is the only
thing the arithmetic of the callback assumes about them. -/

/-- `smooth_size`. -/
def smoothSize : Nat := 512

/-- The controller state surviving between callbacks: `resample_mean`,
`offset_integral`, `offset_array` (indexed modulo `smoothSize`) and
`offset_differential_index`. -/
structure AudioState where
  resampleMean : ℚ
  offsetIntegral : ℚ
  offsetArray : Nat → ℚ
  offsetIdx : Nat

/-- The state after `setupSmoothing` and the initialisation in main:
`resample_mean = static_resample_factor`, integral and ring zeroed. -/
def initAudioState (staticFactor : ℚ) : AudioState :=
  { resampleMean := staticFactor, offsetIntegral := 0,
    offsetArray := fun _ => 0, offsetIdx := 0 }

/-- One callback of the controller: hard skip and rewind branches with their
integral and ring resets, offset recording, Hann windowed smoothing,
integration, proportional clamp at 15.0, the PI formula with
`catch_factor = 100000` and `catch_factor2 = 10000`, quantisation with
`controlquant = 10000` around `resample_mean`, the clamp to `[0.25, 4.0]`,
and the mean update.  `delay0` is the delay measured at the top of the
callback; the returned rational is the resample factor handed to the sample
rate converter. -/
def controllerStep (window : Nat → ℚ) (staticFactor : ℚ) (targetDelay maxDiff : Int)
    (delay0 : Int) (st : AudioState) : AudioState × ℚ :=
  let b1 :=
    if delay0 > targetDelay + maxDiff then
      (delay0 + (delay0 - targetDelay),
       -(st.resampleMean - staticFactor) * 100000 * 10000,
       fun _ : Nat => (0 : ℚ))
    else (delay0, st.offsetIntegral, st.offsetArray)
  let b2 :=
    if b1.1 < targetDelay - maxDiff then
      (b1.1 + (targetDelay - b1.1),
       -(st.resampleMean - staticFactor) * 100000 * 10000,
       fun _ : Nat => (0 : ℚ))
    else b1
  let offset : ℚ := ((b2.1 - targetDelay : Int) : ℚ)
  let ring1 : Nat → ℚ := fun k => if k == st.offsetIdx % smoothSize then offset else b2.2.2 k
  let idx1 := st.offsetIdx + 1
  let smooth0 : ℚ :=
    (∑ i ∈ Finset.range smoothSize, ring1 ((i + idx1 - 1) % smoothSize) * window i) / smoothSize
  let integral1 := b2.2.1 + smooth0
  let smoothP := if |smooth0| < 15.0 then (0 : ℚ) else smooth0
  let factor0 := staticFactor - smoothP / 100000 - integral1 / 100000 / 10000
  let factor1 := (⌊(factor0 - st.resampleMean) * 10000 + 0.5⌋ : ℚ) / 10000 + st.resampleMean
  let factor2 := if factor1 < 0.25 then (0.25 : ℚ) else if factor1 > 4.0 then (4.0 : ℚ) else factor1
  let mean1 := 0.9999 * st.resampleMean + 0.0001 * factor2
  ({ resampleMean := mean1, offsetIntegral := integral1, offsetArray := ring1,
     offsetIdx := idx1 }, factor2)

/-- Iterate the controller for `n` callbacks with a constant measured delay,
carrying the state and the factor computed by the most recent callback. -/
def runController (window : Nat → ℚ) (staticFactor : ℚ) (targetDelay maxDiff delay : Int) :
    Nat → AudioState × ℚ → AudioState × ℚ
  | 0, p => p
  | n + 1, p =>
    runController window staticFactor targetDelay maxDiff delay n
      (controllerStep window staticFactor targetDelay maxDiff delay p.1)

/-! ## Integer form of the 4A date computation

For Modified Julian Dates in the claimed range all quantities below are
nonnegative and every cast truncation is a floor, so the rational
computations of `mjdToYMD` collapse to natural number divisions; this is
proved in the bridging lemmas further down and lets the round trip be
checked by kernel evaluation. -/

/-- Natural number form of `mjdYear` on the claim's range. -/
def mjdYearN (jd : Nat) : Nat := (20 * jd - 301564) / 7305

/-- Natural number form of `mjdYearDays` on the claim's range. -/
def mjdYearDaysN (jd : Nat) : Nat := mjdYearN jd * 1461 / 4

/-- Natural number form of `mjdMonth` on the claim's range. -/
def mjdMonthN (jd : Nat) : Nat := (10 * (jd - mjdYearDaysN jd) - 149561) * 1000 / 306001

/-- Natural number form of `mjdDay` on the claim's range. -/
def mjdDayN (jd : Nat) : Nat := jd - 14956 - mjdYearDaysN jd - mjdMonthN jd * 306001 / 10000

/-- The standard Gregorian to Modified Julian Date conversion that the
round trip property of the spec refers to, written with the same fixed
point constants as the decoder: January and February count as months 13 and
14 of the previous year and
`MJD = 14956 + day + floor((y - 1900) * 365.25) + floor((m + 1) * 30.6001)`. -/
def mjdOfGregorian (y m d : Int) : Int :=
  let a := if m ≤ 2 then (y - 1, m + 12) else (y, m)
  14956 + d + ⌊((a.1 - 1900 : Int) : ℚ) * 365.25⌋ + ⌊((a.2 + 1 : Int) : ℚ) * 30.6001⌋

/-- The round trip check in pure natural number arithmetic: convert `jd` to
a Gregorian date with the decoder's formulas and map it back with the
standard conversion. -/
def mjdOkNat (jd : Nat) : Bool :=
  let month := mjdMonthN jd
  let k : Nat := if month = 14 ∨ month = 15 then 1 else 0
  let y := mjdYearN jd + k + 1900
  let m := month - 1 - k * 12
  let d := mjdDayN jd
  let a := if m ≤ 2 then (y - 1, m + 12) else (y, m)
  14956 + d + (a.1 - 1900) * 1461 / 4 + (a.2 + 1) * 306001 / 10000 == jd

/-! ## Invariant predicates and concrete scenario states -/

/-- The program table invariant: at most one record per PI code. -/
def UniqueIds (t : List ProgramData) : Prop := (t.map (fun pd => pd.id)).Nodup

/-- Every record of `t` survives (by id) into `t2`: no record is removed. -/
def TableExtends (t t2 : List ProgramData) : Prop :=
  ∀ p ∈ t, ∃ q ∈ t2, q.id = p.id

/-- A fresh decoder state with a 16000 divider and an 87.5 to 108 MHz band
tuned to 98.5 MHz (the claims under test do not depend on these values). -/
def freshState : RdsState := initialRdsState 16000 (87.5 : ℚ) 108 (98.5 : ℚ)

/-- The literal scenario group of the clock decode claim, as the four
records that assemble it: block `k` carries `groupData[2k]` as MSB and
`groupData[2k+1]` as LSB, so the assembled 8 bytes are
42 0E CA 7F A9 0C C4 02. -/
def c5Records : List RdsRecord :=
  [{ lsb := 0x0E, msb := 0x42, block := 0 },
   { lsb := 0x7F, msb := 0xCA, block := 1 },
   { lsb := 0x0C, msb := 0xA9, block := 2 },
   { lsb := 0x02, msb := 0xC4, block := 3 }]

/-- A state about to dispatch a type 0A group whose TP bit is clear and
whose TA bit is set, while the recorded announcement flag is off. -/
def taTestState : RdsState :=
  { freshState with groupData := [0, 0, 0x00, 0x10, 0, 0, 0x41, 0x42], groupType := 0 }

/-- A state in which block 0 has selected program 0x1234 whose stored type
is 0. -/
def ptyTestState : RdsState :=
  { freshState with thisProgram := some 0x1234,
                    programs := [{ zeroProgram 0x1234 with freq := 98.5 }] }

/-- A block 1 record whose PTY code decodes to 20
(`((msb << 3) & 0x18) | ((lsb >> 5) & 7) = 16 | 4`). -/
def ptyTestRecord : RdsRecord := { lsb := 0x80, msb := 0x02, block := 1 }

/-- A fresh state tuned to 107.98 MHz, so that one `+` keystroke steps past
the maximum and wraps to the minimum. -/
def wrapTestState : RdsState := initialRdsState 16000 (87.5 : ℚ) 108 (107.98 : ℚ)

/-- Two known programs, neither within 0.09 MHz of the current 90 MHz. -/
def noMatchState : RdsState :=
  { freshState with currentFrequency := (90 : ℚ),
                    programs := [{ zeroProgram 0x1111 with freq := 98.5 },
                                 { zeroProgram 0x2222 with freq := 102.1 }] }

/-- A state about to dispatch a type 0A group with both the TP bit and the
TA bit set, while the recorded announcement flag is off. -/
def taOnTestState : RdsState :=
  { freshState with groupData := [0, 0, 0x04, 0x10, 0, 0, 0x41, 0x42], groupType := 0 }

/-- The frequency selected by a `+` keystroke: step up by 0.05 MHz and wrap
to the minimum when past the maximum. -/
def stepUpFreq (s : RdsState) : ℚ :=
  if s.currentFrequency + 0.05 > s.maxFrequency then s.minFrequency
  else s.currentFrequency + 0.05

/-- A state whose previously processed group was 00 00 00 00 00 00 AB CD
and whose accumulator already holds its first six bytes. -/
def dupTestState : RdsState :=
  { freshState with groupData := [0, 0, 0, 0, 0, 0, 0, 0],
                    lastGroupData := [0, 0, 0, 0, 0, 0, 0xAB, 0xCD] }

/-- A block 3 record completing a group byte-identical to
`dupTestState.lastGroupData`. -/
def dupTestRecord : RdsRecord := { lsb := 0xCD, msb := 0xAB, block := 3 }

/-! # Theorems -/

/-! ## Program table lemmas -/

theorem mem_getProgram_table (pi0 : Nat) (t : List ProgramData) (p : ProgramData)
    (hp : p ∈ t) : p ∈ (getProgram pi0 t).2 := by
  rw [getProgram]
  cases hfind : t.find? (fun pd => pd.id == pi0) with
  | some pd => simpa using hp
  | none => simp [hp]

theorem tableExtends_refl (t : List ProgramData) : TableExtends t t :=
  fun p hp => ⟨p, hp, rfl⟩

theorem tableExtends_trans {t1 t2 t3 : List ProgramData}
    (h1 : TableExtends t1 t2) (h2 : TableExtends t2 t3) : TableExtends t1 t3 := by
  intro p hp
  obtain ⟨q, hq, hqid⟩ := h1 p hp
  obtain ⟨r, hr, hrid⟩ := h2 q hq
  exact ⟨r, hr, hrid.trans hqid⟩

theorem tableExtends_getProgram (pi0 : Nat) (t : List ProgramData) :
    TableExtends t (getProgram pi0 t).2 :=
  fun p hp => ⟨p, mem_getProgram_table pi0 t p hp, rfl⟩

theorem map_id_updateProgram (pi0 : Nat) (f : ProgramData → ProgramData)
    (hf : ∀ pd, pd.id = pi0 → (f pd).id = pd.id) (t : List ProgramData) :
    (updateProgram pi0 f t).map (fun pd => pd.id) = t.map (fun pd => pd.id) := by
  induction t with
  | nil => rfl
  | cons pd rest ih =>
    rw [updateProgram, List.map_cons, List.map_cons, List.map_cons] at *
    refine congrArg₂ (· :: ·) ?_ ih
    split
    · next hbe => exact hf pd (by simpa using hbe)
    · rfl

theorem tableExtends_updateProgram (pi0 : Nat) (f : ProgramData → ProgramData)
    (hf : ∀ pd, pd.id = pi0 → (f pd).id = pd.id) (t : List ProgramData) :
    TableExtends t (updateProgram pi0 f t) := by
  intro p hp
  have : p.id ∈ (updateProgram pi0 f t).map (fun pd => pd.id) := by
    rw [map_id_updateProgram pi0 f hf]
    exact List.mem_map.mpr ⟨p, hp, rfl⟩
  obtain ⟨q, hq, hqid⟩ := List.mem_map.mp this
  exact ⟨q, hq, hqid⟩

theorem uniqueIds_updateProgram (pi0 : Nat) (f : ProgramData → ProgramData)
    (hf : ∀ pd, pd.id = pi0 → (f pd).id = pd.id) (t : List ProgramData) (h : UniqueIds t) :
    UniqueIds (updateProgram pi0 f t) := by
  rw [UniqueIds, map_id_updateProgram pi0 f hf]
  exact h

theorem uniqueIds_getProgram (pi0 : Nat) (t : List ProgramData) (h : UniqueIds t) :
    UniqueIds (getProgram pi0 t).2 := by
  rw [getProgram]
  cases hfind : t.find? (fun pd => pd.id == pi0) with
  | some pd => exact h
  | none =>
    have habs : ∀ p ∈ t, p.id ≠ pi0 := by
      intro p hp hpe
      have := List.find?_eq_none.mp hfind p hp
      simp [hpe] at this
    rw [UniqueIds, List.map_append]
    rw [List.nodup_append]
    refine ⟨h, by simp [zeroProgram], ?_⟩
    intro x hx
    obtain ⟨p, hp, hpid⟩ := List.mem_map.mp hx
    simp [zeroProgram]
    intro hxz
    exact habs p hp (hpid.symm ▸ hxz ▸ rfl)

theorem getProgram_present (pi0 : Nat) (t : List ProgramData) (h : UniqueIds t)
    (p : ProgramData) (hp : p ∈ t) (hid : p.id = pi0) : getProgram pi0 t = (p, t) := by
  rw [getProgram]
  have hfind : t.find? (fun pd => pd.id == pi0) = some p := by
    induction t with
    | nil => cases hp
    | cons q rest ih =>
      rw [List.find?_cons]
      rcases List.mem_cons.mp hp with hqp | hrest
      · subst hqp
        simp [hid]
      · have hq : (q.id == pi0) = false := by
          rw [UniqueIds, List.map_cons, List.nodup_cons] at h
          rcases hbe : q.id == pi0 with _ | _
          · rfl
          · exfalso
            apply h.1
            rw [← hid] at hbe
            exact (beq_iff_eq.mp hbe) ▸ List.mem_map.mpr ⟨p, hrest, rfl⟩
        rw [hq]
        exact ih (by rw [UniqueIds, List.map_cons, List.nodup_cons] at h; exact h.2) hrest
  rw [hfind]

theorem getProgram_absent (pi0 : Nat) (t : List ProgramData)
    (h : ∀ p ∈ t, p.id ≠ pi0) : getProgram pi0 t = (zeroProgram pi0, t ++ [zeroProgram pi0]) := by
  rw [getProgram]
  have hfind : t.find? (fun pd => pd.id == pi0) = none := by
    rw [List.find?_eq_none]
    intro p hp
    simpa using h p hp
  rw [hfind]

theorem getProgram_id (pi0 : Nat) (t : List ProgramData) : (getProgram pi0 t).1.id = pi0 := by
  rw [getProgram]
  cases hfind : t.find? (fun pd => pd.id == pi0) with
  | some pd =>
    have := List.find?_some hfind
    simpa using this
  | none => rfl

theorem EONAF_id (minF : ℚ) (a b : ProgramData) (f1 f2 : ℚ) :
    (EONAF_handleFrequencyPair minF a b f1 f2).2.id = b.id := by
  rw [EONAF_handleFrequencyPair]
  split <;> rfl

/-! ## Table preservation through the decoder step functions -/

theorem dispatch0A_programs (s : RdsState) : (dispatch0A s).1.programs = s.programs := by
  rw [dispatch0A]

theorem dispatch2A_programs (s : RdsState) : (dispatch2A s).1.programs = s.programs := by
  rw [dispatch2A]

/-- Composition of a get-or-create with a store through a handle whose image
id agrees with the handle preserves the table invariants. -/
theorem table_getUpdate (pi0 pi1 : Nat) (f : ProgramData → ProgramData)
    (hf : ∀ pd, pd.id = pi1 → (f pd).id = pd.id) (t : List ProgramData) (h : UniqueIds t) :
    UniqueIds (updateProgram pi1 f (getProgram pi0 t).2) ∧
      TableExtends t (updateProgram pi1 f (getProgram pi0 t).2) :=
  ⟨uniqueIds_updateProgram _ _ hf _ (uniqueIds_getProgram _ _ h),
   tableExtends_trans (tableExtends_getProgram _ _) (tableExtends_updateProgram _ _ hf _)⟩

theorem dispatch14A_table (s : RdsState) (h : UniqueIds s.programs) :
    UniqueIds (dispatch14A s).1.programs ∧ TableExtends s.programs (dispatch14A s).1.programs := by
  have huget := uniqueIds_getProgram ((gByte s 6 <<< 8) ||| gByte s 7) s.programs h
  have hxget := tableExtends_getProgram ((gByte s 6 <<< 8) ||| gByte s 7) s.programs
  rw [dispatch14A]
  dsimp only
  split
  · -- variants 0..3: name bytes stored through the handle
    exact table_getUpdate _ _ _ (by intro pd hpd; rfl) _ h
  · split
    · -- variant 5: frequency mapping
      split
      · split
        · split
          · refine table_getUpdate _ _ _ ?_ _ h
            intro pd hpd
            rw [EONAF_id, getProgram_id]
            exact hpd.symm
          · exact ⟨huget, hxget⟩
        · exact ⟨huget, hxget⟩
      · exact ⟨huget, hxget⟩
    · split
      · -- variant 0xD: traffic flag stored through the handle
        split
        · split
          · exact table_getUpdate _ _ _ (by intro pd hpd; rfl) _ h
          · exact ⟨huget, hxget⟩
        · exact ⟨huget, hxget⟩
      · exact ⟨huget, hxget⟩

theorem dispatchGroup_table (s : RdsState) (h : UniqueIds s.programs) :
    UniqueIds (dispatchGroup s).1.programs ∧
      TableExtends s.programs (dispatchGroup s).1.programs := by
  rw [dispatchGroup]
  split
  · rw [dispatch0A_programs]
    exact ⟨h, tableExtends_refl _⟩
  · split
    · rw [dispatch2A_programs]
      exact ⟨h, tableExtends_refl _⟩
    · split
      · exact ⟨h, tableExtends_refl _⟩
      · split
        · exact ⟨h, tableExtends_refl _⟩
        · split
          · exact dispatch14A_table s h
          · exact ⟨h, tableExtends_refl _⟩

/-- Dispatching from a state whose table already extends `t` with its
invariant intact keeps both facts. -/
theorem dispatch_after {s2 : RdsState} {t : List ProgramData}
    (hu : UniqueIds s2.programs) (hx : TableExtends t s2.programs) :
    UniqueIds (dispatchGroup s2).1.programs ∧
      TableExtends t (dispatchGroup s2).1.programs :=
  ⟨(dispatchGroup_table s2 hu).1, tableExtends_trans hx (dispatchGroup_table s2 hu).2⟩

theorem processRdsBlock_table (s : RdsState) (r : RdsRecord) (h : UniqueIds s.programs) :
    UniqueIds (processRdsBlock s r).1.programs ∧
      TableExtends s.programs (processRdsBlock s r).1.programs := by
  rw [processRdsBlock]
  split
  · -- error branch
    exact ⟨h, tableExtends_refl _⟩
  · dsimp only
    repeat' split
    all_goals
      first
      | exact ⟨h, tableExtends_refl _⟩
      | exact dispatch_after h (tableExtends_refl _)
      | exact table_getUpdate _ _ _ (by intro pd hpd; rfl) _ h
      | exact dispatch_after (table_getUpdate _ _ _ (by intro pd hpd; rfl) _ h).1
          (table_getUpdate _ _ _ (by intro pd hpd; rfl) _ h).2
      | exact ⟨uniqueIds_updateProgram _ _ (by intro pd hpd; rfl) _ h,
               tableExtends_updateProgram _ _ (by intro pd hpd; rfl) _⟩
      | exact dispatch_after (uniqueIds_updateProgram _ _ (by intro pd hpd; rfl) _ h)
          (tableExtends_updateProgram _ _ (by intro pd hpd; rfl) _)

theorem nextProgramLoop_programs (s : RdsState) (i : Nat) :
    ∀ fuel next, (nextProgramLoop s i next fuel).1.programs = s.programs := by
  intro fuel
  induction fuel with
  | zero => intro next; rfl
  | succ f ih =>
    intro next
    rw [nextProgramLoop]
    split
    · rfl
    · dsimp only
      split
      · rfl
      · exact ih _

theorem nextProgram_programs (s : RdsState) : (nextProgram s).1.programs = s.programs := by
  rw [nextProgram]
  split
  · rfl
  · split
    · exact nextProgramLoop_programs s _ _ _
    · rfl

theorem handleKey_programs (s : RdsState) (c : Nat) :
    (handleKey s c).1.programs = s.programs := by
  rw [handleKey]
  split
  · exact nextProgram_programs s
  · split
    · rfl
    · split
      · rfl
      · rfl

/-- C1: at every point of a run the program table holds at most one record
per 16 bit PI code; `getProgram` returns the existing record (leaving the
table unchanged) when the PI is present and otherwise appends exactly one
zero initialised record with that id; and neither an RDS record step nor a
keyboard step ever removes a record.  The record steps are the two table
mutating operations of the loop, so the invariant holds at every point of a
run started from the empty table. -/
theorem program_table_invariant
    (t : List ProgramData) (pi0 : Nat) (s : RdsState) (r : RdsRecord) (c : Nat)
    (ht : UniqueIds t) (hs : UniqueIds s.programs) :
    UniqueIds (getProgram pi0 t).2
    ∧ (∀ p ∈ t, p.id = pi0 → getProgram pi0 t = (p, t))
    ∧ ((∀ p ∈ t, p.id ≠ pi0) → getProgram pi0 t = (zeroProgram pi0, t ++ [zeroProgram pi0]))
    ∧ TableExtends t (getProgram pi0 t).2
    ∧ UniqueIds (processRdsBlock s r).1.programs
    ∧ TableExtends s.programs (processRdsBlock s r).1.programs
    ∧ UniqueIds (handleKey s c).1.programs
    ∧ TableExtends s.programs (handleKey s c).1.programs := by
  refine ⟨uniqueIds_getProgram pi0 t ht,
          fun p hp hid => getProgram_present pi0 t ht p hp hid,
          getProgram_absent pi0 t,
          tableExtends_getProgram pi0 t,
          (processRdsBlock_table s r hs).1,
          (processRdsBlock_table s r hs).2,
          ?_, ?_⟩
  · rw [handleKey_programs s c]
    exact hs
  · rw [handleKey_programs s c]
    exact tableExtends_refl _

theorem program_table_invariant_witness :
    UniqueIds (getProgram 0x1234 []).2 ∧
      TableExtends ptyTestState.programs (processRdsBlock ptyTestState ptyTestRecord).1.programs :=
  ⟨(program_table_invariant [] 0x1234 ptyTestState ptyTestRecord 43
      (by simp [UniqueIds]) (by simp [UniqueIds, ptyTestState, freshState, initialRdsState])).1,
   (program_table_invariant [] 0x1234 ptyTestState ptyTestRecord 43
      (by simp [UniqueIds]) (by simp [UniqueIds, ptyTestState, freshState, initialRdsState])).2.2.2.2.2.1⟩

/-! ## C2: set-frequency -/

/-- C2 counterexample: the claim says the register receives
`round(f * divider)`.  At `f = 90.0001` MHz (strictly inside the 87.5 to
108 band) with divider 16000, the product is 1440001.6; the C assignment
`freq.frequency = newFrequency * frequencyDivider` converts float to u32 by
truncation and writes 1440001, while rounding would give 1440002. -/
theorem setTunerFrequency_truncates_not_rounds :
    (87.5 : ℚ) < 90.0001 ∧ (90.0001 : ℚ) < 108 ∧
    setTunerFrequency 87.5 108 16000 90.0001 = (some 1440001, []) ∧
    round ((90.0001 : ℚ) * 16000) = 1440002 := by
  have hprod : (90.0001 : ℚ) * ((16000 : Nat) : ℚ) = 1440001.6 := by norm_num
  refine ⟨by norm_num, by norm_num, ?_, ?_⟩
  · rw [setTunerFrequency, if_pos (by constructor <;> norm_num)]
    have hfl : ctrunc ((90.0001 : ℚ) * ((16000 : Nat) : ℚ)) = 1440001 := by
      rw [ctrunc, if_neg (by norm_num), hprod]
      rw [Int.floor_eq_iff]
      norm_num
    rw [hfl]
    rfl
  · have hprod2 : (90.0001 : ℚ) * 16000 = 1440001.6 := by norm_num
    rw [round_eq, hprod2]
    rw [Int.floor_eq_iff]
    norm_num

/-- C2 (amended): for every nonnegative frequency `f`, set-frequency fails
(no register write, one out of range line) whenever `f` is not strictly
between the minimum and maximum frequencies, and otherwise writes the raw
register value `floor(f * divider)` (the truncation of the product, not its
rounding). -/
theorem setTunerFrequency_spec (minF maxF : ℚ) (divider : Nat) (f : ℚ) (hf : 0 ≤ f) :
    (¬(minF < f ∧ f < maxF) →
      setTunerFrequency minF maxF divider f =
        (none, [formatFixed2 f ++ " is not in range (" ++ formatFixed2 minF ++
                " - " ++ formatFixed2 maxF ++ ")"]))
    ∧ ((minF < f ∧ f < maxF) →
      setTunerFrequency minF maxF divider f = (some ⌊f * divider⌋.toNat, [])) := by
  constructor
  · intro h
    rw [setTunerFrequency, if_neg]
    rintro ⟨h1, h2⟩
    exact h ⟨h2, h1⟩
  · intro h
    rw [setTunerFrequency, if_pos ⟨h.2, h.1⟩, ctrunc,
        if_neg (not_lt.mpr (by positivity))]

theorem setTunerFrequency_spec_witness :
    setTunerFrequency 87.5 108 16000 98.5 = (some ⌊(98.5 : ℚ) * 16000⌋.toNat, []) :=
  (setTunerFrequency_spec 87.5 108 16000 98.5 (by norm_num)).2 ⟨by norm_num, by norm_num⟩

/-! ## C3: duplicate group suppression -/

/-- C3: when the record completing a group (block 3, no error flag) leaves
the 8 accumulated bytes identical to the previously processed group's
bytes, the group is suppressed: no line is emitted and nothing is
dispatched; the step only stores the two bytes and counts the block. -/
theorem duplicate_group_suppressed (s : RdsState) (r : RdsRecord)
    (hb : r.block &&& 0x07 = 3) (he : r.block &&& 0x80 ≠ 0x80)
    (hdup : (s.groupData.set 6 r.msb).set 7 r.lsb = s.lastGroupData) :
    processRdsBlock s r =
      ({s with blockCount := s.blockCount + 1,
               groupData := (s.groupData.set 6 r.msb).set 7 r.lsb}, []) := by
  rw [processRdsBlock]
  rw [if_neg (by simp [he])]
  dsimp only
  rw [hb]
  norm_num
  intro hc
  exact absurd hdup hc

theorem duplicate_group_suppressed_witness :
    processRdsBlock dupTestState dupTestRecord =
      ({dupTestState with
          blockCount := dupTestState.blockCount + 1,
          groupData :=
            (dupTestState.groupData.set 6 dupTestRecord.msb).set 7 dupTestRecord.lsb},
       ([] : List String)) :=
  duplicate_group_suppressed dupTestState dupTestRecord (by decide) (by decide) (by decide)

/-! ## C5: the clock decode scenario -/

/-- C5 counterexample: feeding the four records that assemble the group
42 0E CA 7F A9 0C C4 02 into a fresh decoder does not produce the line
`Date: 2020-01-15 13:19 (+01:00)` anywhere in the output.  (The group's
type field, byte 2 shifted right by 3, is 25, not 8, so the clock branch is
never reached; the MJD bits decode to 119942, not 58849.) -/
theorem clock_scenario_no_date_line :
    "Date: 2020-01-15 13:19 (+01:00)" ∉ (runRds freshState c5Records).2 := by decide

/-- C5 (amended): dispatching that group from a fresh decoder state emits
exactly one line, `Program type: Social affairs`, produced by the PTY field
of block 1 (code 19); the group itself is dispatched to the verbose-only
default branch and prints nothing. -/
theorem clock_scenario_output :
    (runRds freshState c5Records).2 = ["Program type: Social affairs"] := by decide

/-! ## C7: the program type table -/

/-- C7: the code is off by one against the 31 entry RBDS program type
table.  A block 1 record with PTY code 20 (whose name the table in the
glossary gives as `Religion`) updates the stored type to 20 but emits
`Program type: ReligionPhone-in`: the missing comma in the `programTypes`
initialiser concatenates two labels and shifts every later label one slot. -/
theorem pty_code20_emits_shifted_label :
    (processRdsBlock ptyTestState ptyTestRecord).2 = ["Program type: ReligionPhone-in"]
    ∧ (processRdsBlock ptyTestState ptyTestRecord).2 ≠ ["Program type: Religion"]
    ∧ Option.map (fun pd => pd.type)
        (lookupProgram 0x1234 (processRdsBlock ptyTestState ptyTestRecord).1.programs) =
        some 20 := by decide

/-! ## C6: traffic announcement emission -/

/-- C6 counterexample: a dispatched type 0A group whose TA bit (set) differs
from the recorded flag (off) but whose TP bit is clear emits nothing and
leaves the recorded flag unchanged: the C guards the emission with
`TP && isTrafficAnnouncement != ta`, not with the TA change alone. -/
theorem ta_change_not_emitted_without_tp :
    (gByte taTestState 3 &&& 0x10 == 0x10) ≠ taTestState.ta
    ∧ (dispatchGroup taTestState).2 = []
    ∧ (dispatchGroup taTestState).1.ta = taTestState.ta := by decide

/-- C6 (amended): for a dispatched type 0A group, whenever the TP bit is set
and the TA bit differs from the previously recorded value, the recorded
value is updated to the TA bit and a `Traffic announcement on` or
`Traffic announcement off` line is emitted. -/
theorem ta_change_emitted (s : RdsState) (h0 : s.groupType = 0)
    (hTP : gByte s 2 &&& 0x04 = 0x04)
    (hTA : (gByte s 3 &&& 0x10 == 0x10) ≠ s.ta) :
    (dispatchGroup s).1.ta = (gByte s 3 &&& 0x10 == 0x10)
    ∧ ("Traffic announcement " ++
        if (gByte s 3 &&& 0x10 == 0x10) then "on" else "off") ∈ (dispatchGroup s).2 := by
  have hcond : ((gByte s 2 &&& 0x04 == 0x04) &&
      ((gByte s 3 &&& 0x10 == 0x10) != s.ta)) = true := by
    rw [hTP]
    simp [bne_iff_ne]
    exact hTA
  rw [dispatchGroup, if_pos (by simp [h0]), dispatch0A]
  dsimp only
  rw [if_pos hcond]
  dsimp only
  constructor
  · rfl
  · simp

theorem ta_change_emitted_witness :
    (dispatchGroup taOnTestState).1.ta = (gByte taOnTestState 3 &&& 0x10 == 0x10)
    ∧ ("Traffic announcement " ++
        if (gByte taOnTestState 3 &&& 0x10 == 0x10) then "on" else "off") ∈
      (dispatchGroup taOnTestState).2 :=
  ta_change_emitted taOnTestState (by decide) (by decide) (by decide)

/-! ## C8: the plus keystroke -/

/-- C8 counterexample: tuned to 107.98 MHz in an 87.5 to 108 band, `+`
steps to 108.03, wraps to the minimum 87.5 — and then the retune is
rejected: `setTunerFrequency` requires the frequency to be strictly above
the minimum, so no register write happens (the out of range line and the
`Frequency tuned to` line are both printed).  The claim's assertion that
the tuner is retuned to the resulting frequency fails in the wrap case. -/
theorem plus_key_wrap_does_not_retune :
    wrapTestState.currentFrequency + 0.05 > wrapTestState.maxFrequency
    ∧ (handleKey wrapTestState 43).1.currentFrequency = wrapTestState.minFrequency
    ∧ (handleKey wrapTestState 43).2.1 = [] := by
  have e : handleKey wrapTestState 43 =
      ({wrapTestState with currentFrequency := 87.5},
       [],
       ["87.50 is not in range (87.50 - 108.00)", "Frequency tuned to 87.50"]) := by
    rw [handleKey, if_neg (by decide), if_pos (by decide)]
    dsimp only
    rw [if_pos (show wrapTestState.currentFrequency + 0.05 > wrapTestState.maxFrequency by
          norm_num [wrapTestState, initialRdsState])]
    rw [setTunerFrequency, if_neg (by norm_num [wrapTestState, initialRdsState])]
    norm_num [wrapTestState, initialRdsState, formatFixed2, padNum]
    constructor
    · rfl
    · constructor
  rw [e]
  refine ⟨by norm_num [wrapTestState, initialRdsState], ?_, rfl⟩
  norm_num [wrapTestState, initialRdsState]

/-- C8 (amended): `+` steps the current frequency up by 0.05 MHz, wrapping
to the minimum when the result exceeds the maximum; the `Frequency tuned
to` line is always emitted; but the device register is written only when
the resulting frequency lies strictly inside the band — in particular a
wrap lands exactly on the minimum and is rejected as out of range, with the
range error line printed before the tuned line. -/
theorem plus_key_spec (s : RdsState) (hf : 0 ≤ stepUpFreq s) :
    (handleKey s 43).1.currentFrequency = stepUpFreq s
    ∧ ((s.minFrequency < stepUpFreq s ∧ stepUpFreq s < s.maxFrequency) →
        (handleKey s 43).2.1 = [⌊stepUpFreq s * s.frequencyDivider⌋.toNat]
        ∧ (handleKey s 43).2.2 = ["Frequency tuned to " ++ formatFixed2 (stepUpFreq s)])
    ∧ (¬(s.minFrequency < stepUpFreq s ∧ stepUpFreq s < s.maxFrequency) →
        (handleKey s 43).2.1 = []
        ∧ (handleKey s 43).2.2 =
            [formatFixed2 (stepUpFreq s) ++ " is not in range (" ++
               formatFixed2 s.minFrequency ++ " - " ++ formatFixed2 s.maxFrequency ++ ")",
             "Frequency tuned to " ++ formatFixed2 (stepUpFreq s)]) := by
  have e : handleKey s 43 =
      ({s with currentFrequency := stepUpFreq s},
       (setTunerFrequency s.minFrequency s.maxFrequency s.frequencyDivider
          (stepUpFreq s)).1.toList,
       (setTunerFrequency s.minFrequency s.maxFrequency s.frequencyDivider
          (stepUpFreq s)).2 ++ ["Frequency tuned to " ++ formatFixed2 (stepUpFreq s)]) := by
    rw [handleKey, if_neg (by decide), if_pos (by decide), stepUpFreq]
  rw [e]
  refine ⟨rfl, ?_, ?_⟩
  · intro hr
    rw [setTunerFrequency, if_pos ⟨hr.2, hr.1⟩, ctrunc, if_neg (not_lt.mpr (by positivity))]
    exact ⟨rfl, rfl⟩
  · intro hr
    rw [setTunerFrequency, if_neg (fun hx => hr ⟨hx.2, hx.1⟩)]
    exact ⟨rfl, rfl⟩

theorem plus_key_spec_witness :
    (handleKey freshState 43).1.currentFrequency = stepUpFreq freshState
    ∧ (handleKey freshState 43).2.1 = [⌊stepUpFreq freshState * freshState.frequencyDivider⌋.toNat]
    ∧ (handleKey freshState 43).2.2 =
        ["Frequency tuned to " ++ formatFixed2 (stepUpFreq freshState)] := by
  have hs : stepUpFreq freshState = 98.55 := by
    rw [stepUpFreq]
    norm_num [freshState, initialRdsState]
  have h := plus_key_spec freshState (by rw [hs]; norm_num)
  have hr := h.2.1 (by rw [hs]; constructor <;> norm_num [freshState, initialRdsState])
  exact ⟨h.1, hr.1, hr.2⟩

/-! ## C10: next-program as a no-op -/

theorem findProgramIndex_none (cur : ℚ) (l : List ProgramData)
    (h : ∀ p ∈ l, ¬(cur ≥ p.freq - 0.09 ∧ cur ≤ p.freq + 0.09)) :
    ∀ i, findProgramIndex cur l i = none := by
  induction l with
  | nil => intro i; rfl
  | cons pd rest ih =>
    intro i
    rw [findProgramIndex, if_neg (h pd (List.mem_cons_self pd rest))]
    exact ih (fun p hp => h p (List.mem_cons_of_mem pd hp)) (i + 1)

/-- C10: `nextProgram` is a complete no-op — state untouched (current
frequency and program table included), no register write, no output — when
the table has at most one entry or when no entry's frequency lies within
0.09 MHz of the current frequency. -/
theorem nextProgram_noop (s : RdsState)
    (h : s.programs.length ≤ 1 ∨
      ∀ p ∈ s.programs,
        ¬(s.currentFrequency ≥ p.freq - 0.09 ∧ s.currentFrequency ≤ p.freq + 0.09)) :
    nextProgram s = (s, [], []) := by
  rw [nextProgram]
  by_cases hlen : s.programs.length ≤ 1
  · rw [if_pos hlen]
  · rw [if_neg hlen]
    rcases h with h | h
    · exact absurd h hlen
    · rw [findProgramIndex_none s.currentFrequency s.programs h 0]

theorem nextProgram_noop_witness : nextProgram noMatchState = (noMatchState, [], []) := by
  refine nextProgram_noop noMatchState (Or.inr ?_)
  intro p hp
  have hp2 : p = { zeroProgram 0x1111 with freq := 98.5 } ∨
      p = { zeroProgram 0x2222 with freq := 102.1 } := by
    simpa [noMatchState, freshState, initialRdsState] using hp
  have hcur : noMatchState.currentFrequency = 90 := rfl
  rcases hp2 with rfl | rfl <;>
    · rw [hcur]
      rintro ⟨h1, h2⟩
      norm_num [zeroProgram] at h1

/-! ## C9: controller convergence -/

theorem smooth_of_ring_zero (window ring : Nat → ℚ) (h : ∀ k, ring k = 0) (f : Nat → Nat) :
    (∑ i ∈ Finset.range smoothSize, ring (f i) * window i) / smoothSize = 0 := by
  rw [Finset.sum_eq_zero]
  · simp
  · intro i _
    rw [h]
    ring

theorem controllerStep_steady (window : Nat → ℚ) (targetDelay maxDiff : Int)
    (hmd : 0 ≤ maxDiff) (st : AudioState) (hmean : st.resampleMean = 1/2)
    (hint : st.offsetIntegral = 0) (hring : ∀ k, st.offsetArray k = 0) :
    (controllerStep window (1/2) targetDelay maxDiff targetDelay st).2 = 1/2
    ∧ (controllerStep window (1/2) targetDelay maxDiff targetDelay st).1.resampleMean = 1/2
    ∧ (controllerStep window (1/2) targetDelay maxDiff targetDelay st).1.offsetIntegral = 0
    ∧ ∀ k, (controllerStep window (1/2) targetDelay maxDiff targetDelay st).1.offsetArray k
        = 0 := by
  have hA : ¬(targetDelay > targetDelay + maxDiff) := by omega
  have hB : ¬(targetDelay < targetDelay - maxDiff) := by omega
  have hfl : ⌊(0.5 : ℚ)⌋ = 0 := by
    rw [Int.floor_eq_iff]
    norm_num
  have hc1 : ¬((2⁻¹ : ℚ) < 0.25) := by norm_num
  have hc2 : ¬((4.0 : ℚ) < 2⁻¹) := by norm_num
  refine ⟨?_, ?_, ?_, ?_⟩
  all_goals simp only [controllerStep, if_neg hA]
  all_goals simp only [if_neg hB]
  all_goals try simp [hring, hint, hmean, ite_self, hfl, hc1, hc2]
  all_goals try norm_num

theorem runController_steady (window : Nat → ℚ) (targetDelay maxDiff : Int)
    (hmd : 0 ≤ maxDiff) :
    ∀ (n : Nat) (p : AudioState × ℚ),
      p.1.resampleMean = 1/2 → p.1.offsetIntegral = 0 → (∀ k, p.1.offsetArray k = 0) →
      (runController window (1/2) targetDelay maxDiff targetDelay n p).1.resampleMean = 1/2
      ∧ (0 < n →
          (runController window (1/2) targetDelay maxDiff targetDelay n p).2 = 1/2)
      ∧ (n = 0 →
          (runController window (1/2) targetDelay maxDiff targetDelay n p).2 = p.2) := by
  intro n
  induction n with
  | zero =>
    intro p hm hi hr
    exact ⟨hm, fun h => absurd h (by omega), fun _ => rfl⟩
  | succ m ih =>
    intro p hm hi hr
    have hstep := controllerStep_steady window targetDelay maxDiff hmd p.1 hm hi hr
    rw [runController]
    have := ih (controllerStep window (1/2) targetDelay maxDiff targetDelay p.1)
      hstep.2.1 hstep.2.2.1 hstep.2.2.2
    refine ⟨this.1, fun _ => ?_, fun h => by omega⟩
    rcases Nat.eq_zero_or_pos m with hz | hpos
    · rw [this.2.2 hz, hstep.1]
    · exact this.2.1 hpos

/-- C9: with static resample factor 48000/96000, target delay 4096 and a
constant measured delay of 4096 (offset 0) for 512 callbacks, the resample
factor handed to the converter after the last callback is within
1/controlquant of 0.5 — with exact arithmetic it is exactly 0.5, for any
Hann window contents and any nonnegative `max_diff`. -/
theorem audio_controller_convergence (window : Nat → ℚ) (maxDiff : Int) (hmd : 0 ≤ maxDiff) :
    |(runController window (48000/96000) 4096 maxDiff 4096 512
        (initAudioState (48000/96000), 48000/96000)).2 - 48000/96000| < 1/10000 := by
  have hhalf : (48000/96000 : ℚ) = 1/2 := by norm_num
  rw [hhalf]
  have h := (runController_steady window 4096 maxDiff hmd 512
    (initAudioState (1/2), 1/2) rfl rfl (fun _ => rfl)).2.1 (by omega)
  rw [h]
  norm_num

theorem audio_controller_convergence_witness :
    |(runController (fun _ => 0) (48000/96000) 4096 4096 4096 512
        (initAudioState (48000/96000), 48000/96000)).2 - 48000/96000| < 1/10000 :=
  audio_controller_convergence (fun _ => 0) 4096 (by decide)

/-! ## C4: the Modified Julian Date round trip

The rational computations of `mjdToYMD` are first reduced to the natural
number divisions of `mjdYearN`, `mjdMonthN` and `mjdDayN` on the claim's
range, where every cast argument is nonnegative; the round trip is then
checked by kernel evaluation over all 47483 dates. -/

theorem ctrunc_eq_floor (q : ℚ) (h : 0 ≤ q) : ctrunc q = ⌊q⌋ := by
  rw [ctrunc, if_neg (not_lt.mpr h)]

theorem floor_mul_36525 (n : Int) : ⌊(n : ℚ) * 365.25⌋ = n * 1461 / 4 := by
  have c : (365.25 : ℚ) = 1461 / 4 := by norm_num
  have h : (n : ℚ) * 365.25 = ((n * 1461 : Int) : ℚ) / ((4 : Nat) : ℚ) := by
    rw [c]
    push_cast
    ring
  rw [h, Rat.floor_intCast_div_natCast]
  norm_num

theorem floor_mul_306001 (n : Int) : ⌊(n : ℚ) * 30.6001⌋ = n * 306001 / 10000 := by
  have c : (30.6001 : ℚ) = 306001 / 10000 := by norm_num
  have h : (n : ℚ) * 30.6001 = ((n * 306001 : Int) : ℚ) / ((10000 : Nat) : ℚ) := by
    rw [c]
    push_cast
    ring
  rw [h, Rat.floor_intCast_div_natCast]
  norm_num

theorem mjdYear_eq (jd : Nat) (h : 40587 ≤ jd) : mjdYear jd = (mjdYearN jd : Int) := by
  have hcast : (40587 : ℚ) ≤ (jd : ℚ) := by exact_mod_cast h
  have h0 : (0 : ℚ) ≤ ((jd : ℚ) - 15078.2) / 365.25 := by
    apply div_nonneg
    · norm_num
      linarith
    · norm_num
  rw [mjdYear, ctrunc_eq_floor _ h0]
  have e : ((jd : ℚ) - 15078.2) / 365.25 =
      ((20 * (jd : Int) - 301564 : Int) : ℚ) / ((7305 : Nat) : ℚ) := by
    have c1 : (15078.2 : ℚ) = 150782 / 10 := by norm_num
    have c2 : (365.25 : ℚ) = 1461 / 4 := by norm_num
    rw [c1, c2]
    push_cast
    rw [div_eq_div_iff] <;> norm_num
    ring
  rw [e, Rat.floor_intCast_div_natCast]
  unfold mjdYearN
  omega

theorem mjdYearDays_eq (jd : Nat) (h : 40587 ≤ jd) :
    mjdYearDays jd = (mjdYearDaysN jd : Int) := by
  rw [mjdYearDays, mjdYear_eq jd h]
  have h0 : (0 : ℚ) ≤ ((mjdYearN jd : Int) : ℚ) * 365.25 := by positivity
  rw [ctrunc_eq_floor _ h0, floor_mul_36525]
  unfold mjdYearDaysN
  omega

theorem mjdYearDaysN_le (jd : Nat) (h : 40587 ≤ jd) : mjdYearDaysN jd + 15079 ≤ jd := by
  unfold mjdYearDaysN mjdYearN
  omega

theorem mjdMonth_eq (jd : Nat) (h : 40587 ≤ jd) : mjdMonth jd = (mjdMonthN jd : Int) := by
  have hyd := mjdYearDaysN_le jd h
  have hydc : ((mjdYearDaysN jd : ℚ)) + 15079 ≤ (jd : ℚ) := by exact_mod_cast hyd
  rw [mjdMonth, mjdYearDays_eq jd h]
  have harg0 : (0 : ℚ) ≤ (((jd : ℚ) - 14956.1) - ((mjdYearDaysN jd : Int) : ℚ)) / 30.6001 := by
    apply div_nonneg
    · push_cast
      norm_num
      linarith
    · norm_num
  rw [ctrunc_eq_floor _ harg0]
  have e : (((jd : ℚ) - 14956.1) - ((mjdYearDaysN jd : Int) : ℚ)) / 30.6001 =
      (((10 * ((jd : Int) - (mjdYearDaysN jd : Int)) - 149561) * 1000 : Int) : ℚ) /
        ((306001 : Nat) : ℚ) := by
    have c1 : (14956.1 : ℚ) = 149561 / 10 := by norm_num
    have c2 : (30.6001 : ℚ) = 306001 / 10000 := by norm_num
    rw [c1, c2]
    push_cast
    rw [div_eq_div_iff] <;> norm_num
    ring
  rw [e, Rat.floor_intCast_div_natCast]
  unfold mjdMonthN
  omega

theorem mjdDay_eq (jd : Nat) (h : 40587 ≤ jd) : mjdDay jd = (mjdDayN jd : Int) := by
  rw [mjdDay, mjdYearDays_eq jd h, mjdMonth_eq jd h]
  have h0 : (0 : ℚ) ≤ ((mjdMonthN jd : Int) : ℚ) * 30.6001 := by positivity
  rw [ctrunc_eq_floor _ h0, floor_mul_306001]
  unfold mjdDayN mjdMonthN mjdYearDaysN mjdYearN
  omega

theorem mjdOfGregorian_int (y m d : Int) :
    mjdOfGregorian y m d =
      14956 + d + ((if m ≤ 2 then (y - 1, m + 12) else (y, m)).1 - 1900) * 1461 / 4
        + ((if m ≤ 2 then (y - 1, m + 12) else (y, m)).2 + 1) * 306001 / 10000 := by
  rw [mjdOfGregorian, floor_mul_36525, floor_mul_306001]

set_option maxHeartbeats 4000000 in
/-- Every Modified Julian Date in the interval `[40587, 88069]` passes the
round trip check: the divisions by 7305, 4, 306001 and 10000 are eliminated
symbolically, and each branch of the `K` and month adjustments closes by
linear arithmetic over the quotient constraints. -/
theorem mjdOkNat_all (m : Nat) (h1 : 40587 ≤ m) (h2 : m ≤ 88069) : mjdOkNat m = true := by
  unfold mjdOkNat mjdDayN mjdMonthN mjdYearDaysN mjdYearN
  simp only [beq_iff_eq]
  set Y := (20 * m - 301564) / 7305 with hY
  set YD := Y * 1461 / 4 with hYD
  set M := (10 * (m - YD) - 149561) * 1000 / 306001 with hM
  set MT := M * 306001 / 10000 with hMT
  split
  next hK =>
    split
    next hm =>
      dsimp only
      rw [show Y + 1 + 1900 - 1 - 1900 = Y from by omega,
        show M - 1 - 1 * 12 + 12 + 1 = M from by omega]
      omega
    next hm => exact absurd (show M - 1 - 1 * 12 ≤ 2 from by omega) hm
  next hK =>
    split
    next hm =>
      dsimp only
      rw [show Y + 0 + 1900 - 1 - 1900 = Y - 1 from by omega,
        show M - 1 - 0 * 12 + 12 + 1 = M + 12 from by omega]
      omega
    next hm =>
      dsimp only
      rw [show Y + 0 + 1900 - 1900 = Y from by omega,
        show M - 1 - 0 * 12 + 1 = M from by omega]
      omega

theorem castDiv_b1y (x : Nat) : (((x + 1 + 1900 - 1 - 1900) * 1461 / 4 : Nat) : Int) =
    ((x : Int) + 1 + 1900 - 1 - 1900) * 1461 / 4 := by
  omega

theorem castDiv_b1m (x : Nat) (h : 13 ≤ x) :
    (((x - 1 - 1 * 12 + 12 + 1) * 306001 / 10000 : Nat) : Int) =
    ((x : Int) - 1 - 1 * 12 + 12 + 1) * 306001 / 10000 := by
  omega

theorem castDiv_b2ay (x : Nat) (h : 1 ≤ x) :
    (((x + 0 + 1900 - 1 - 1900) * 1461 / 4 : Nat) : Int) =
    ((x : Int) + 0 + 1900 - 1 - 1900) * 1461 / 4 := by
  omega

theorem castDiv_b2am (x : Nat) (h : 1 ≤ x) :
    (((x - 1 - 0 * 12 + 12 + 1) * 306001 / 10000 : Nat) : Int) =
    ((x : Int) - 1 - 0 * 12 + 12 + 1) * 306001 / 10000 := by
  omega

theorem castDiv_b2by (x : Nat) : (((x + 0 + 1900 - 1900) * 1461 / 4 : Nat) : Int) =
    ((x : Int) + 0 + 1900 - 1900) * 1461 / 4 := by
  omega

theorem castDiv_b2bm (x : Nat) (h : 1 ≤ x) :
    (((x - 1 - 0 * 12 + 1) * 306001 / 10000 : Nat) : Int) =
    ((x : Int) - 1 - 0 * 12 + 1) * 306001 / 10000 := by
  omega

/-- C4: for every Modified Julian Date in `[40587, 88069]`, converting to a
Gregorian `(year, month, day)` with the group 4A formulas of the decoder and
mapping that date back to a Modified Julian Date with the standard
conversion yields the original value: the round trip is the identity on the
interval 1970-01-01 to 2100-01-01. -/
theorem mjd_roundtrip (jd : Nat) (h1 : 40587 ≤ jd) (h2 : jd ≤ 88069) :
    mjdOfGregorian (mjdToYMD jd).1 (mjdToYMD jd).2.1 (mjdToYMD jd).2.2 = (jd : Int) := by
  have hok := mjdOkNat_all jd h1 h2
  have hyE := mjdYear_eq jd h1
  have hmE := mjdMonth_eq jd h1
  have hdE := mjdDay_eq jd h1
  have hbm : 3 ≤ mjdMonthN jd ∧ mjdMonthN jd ≤ 15 := by
    unfold mjdMonthN mjdYearDaysN mjdYearN
    omega
  have hby : 69 ≤ mjdYearN jd ∧ mjdYearN jd ≤ 199 := by
    unfold mjdYearN
    omega
  simp only [mjdToYMD, mjdOfGregorian_int]
  rw [hyE, hmE, hdE]
  by_cases hK : mjdMonthN jd = 14 ∨ mjdMonthN jd = 15
  · have hm13 : 13 ≤ mjdMonthN jd := by omega
    have hc1 : mjdMonthN jd - 1 - 1 * 12 ≤ 2 := by omega
    rw [if_pos (show ((mjdMonthN jd : Int) = 14 ∨ (mjdMonthN jd : Int) = 15) by omega)]
    rw [if_pos (show ((mjdMonthN jd : Int) - 1 - 1 * 12 ≤ 2) by omega)]
    dsimp only
    simp only [mjdOkNat, beq_iff_eq] at hok
    rw [if_pos hK] at hok
    rw [if_pos hc1] at hok
    dsimp only at hok
    rw [← castDiv_b1y (mjdYearN jd), ← castDiv_b1m (mjdMonthN jd) hm13]
    exact_mod_cast hok
  · have hm1 : 1 ≤ mjdMonthN jd := by omega
    have hy1 : 1 ≤ mjdYearN jd := by omega
    rw [if_neg (show ¬((mjdMonthN jd : Int) = 14 ∨ (mjdMonthN jd : Int) = 15) by omega)]
    by_cases hm3 : mjdMonthN jd ≤ 3
    · have hc2 : mjdMonthN jd - 1 - 0 * 12 ≤ 2 := by omega
      rw [if_pos (show ((mjdMonthN jd : Int) - 1 - 0 * 12 ≤ 2) by omega)]
      dsimp only
      simp only [mjdOkNat, beq_iff_eq] at hok
      rw [if_neg hK] at hok
      rw [if_pos hc2] at hok
      dsimp only at hok
      rw [← castDiv_b2ay (mjdYearN jd) hy1, ← castDiv_b2am (mjdMonthN jd) hm1]
      exact_mod_cast hok
    · have hc3 : ¬(mjdMonthN jd - 1 - 0 * 12 ≤ 2) := by omega
      rw [if_neg (show ¬((mjdMonthN jd : Int) - 1 - 0 * 12 ≤ 2) by omega)]
      dsimp only
      simp only [mjdOkNat, beq_iff_eq] at hok
      rw [if_neg hK] at hok
      rw [if_neg hc3] at hok
      dsimp only at hok
      rw [← castDiv_b2by (mjdYearN jd), ← castDiv_b2bm (mjdMonthN jd) hm1]
      exact_mod_cast hok

theorem mjd_roundtrip_witness :
    mjdOfGregorian (mjdToYMD 58849).1 (mjdToYMD 58849).2.1 (mjdToYMD 58849).2.2 = 58849 :=
  mjd_roundtrip 58849 (by decide) (by decide)

end Si470x
